import Mathlib

/-!
Verification of the Sequential Chained Transfer Engine of the cbtc library.

This file gives a shallow embedding, in Lean 4, of the parts of the Rust
sources that the specification's claims are about:

  * `src/src/transfer.rs` — `TokenState` (credential lifecycle),
    `submit_sequential_chained` (the chained-transfer loop),
    `parse_transfer_response` (the response extractor) and
    `generate_unique_reference` (idempotency references);
  * `src/src/accept.rs` / `crates/cbtc/src/withdraw.rs` — the batch
    controller (`accept_all` / `withdraw_all`, identical batching logic);
  * `src/src/consolidate.rs` — `consolidate_utxos`.

Modelling conventions:

  * Network calls (keycloak login/refresh, registry fetch, ledger
    submission) are the only effects; each is modelled by an oracle
    parameter supplying its outcome (`Except String …` mirrors the Rust
    `Result<…, String>`), and by an entry in an explicit call trace where
    a claim is about which calls happen.
  * `serde_json::Value` is modelled by the inductive `Json`; a raw ledger
    response string is modelled by `Option Json`, `none` standing for a
    string that is not valid JSON (the bytes of the string beyond its
    parse are never inspected by the modelled code).  JSON numbers carry
    no payload because none of the modelled code inspects them.
  * `SystemTime` is modelled as seconds since the epoch (`Nat`);
    wrapping `u32`/`u64` subtraction is made explicit via `% 2 ^ 32` /
    `% 2 ^ 64`.
  * `std::time::SystemTime::now()` values are passed in explicitly: each
    read of the clock is a separate parameter.
-/

/-! ## Generic helpers -/

/-- Boolean success test on `Except` (mirrors `Result::is_ok`). -/
def exOk {ε α : Type} : Except ε α → Bool
  | .ok _ => true
  | .error _ => false

/-- The per-item error recorded for a batch outcome: `none` on success,
the submission's error string on failure. -/
def outcomeError (outcome : Except String Unit) : Option String :=
  match outcome with
  | .ok _ => none
  | .error e => some e

/-- `startsWith l p`: the char list `p` is an initial segment of `l`. -/
def startsWith : List Char → List Char → Bool
  | _, [] => true
  | [], _ :: _ => false
  | a :: as, b :: bs => a = b && startsWith as bs

/-- `containsSub needle hay`: `needle` occurs contiguously inside `hay`
(mirrors Rust `str::contains` for a literal pattern; byte-level and
char-level substring search agree on valid UTF-8). -/
def containsSub (needle : List Char) : List Char → Bool
  | [] => startsWith [] needle
  | c :: rest => startsWith (c :: rest) needle || containsSub needle rest

/-- Rust `hay.contains(needle)`. -/
def strContains (hay needle : String) : Bool :=
  containsSub needle.data hay.data

/-- `[s, s+1, …, s+n-1]` — the indices produced by `enumerate()`. -/
def idxRange (s : Nat) : Nat → List Nat
  | 0 => []
  | n + 1 => s :: idxRange (s + 1) n

/-- Structural worker for `chunks`: `fuel` bounds the recursion depth
(`fuel = l.length` always suffices). -/
def chunksFuel {α : Type} (k : Nat) : Nat → List α → List (List α)
  | _, [] => []
  | 0, _ :: _ => []
  | fuel + 1, x :: xs => (x :: xs.take (k - 1)) :: chunksFuel k fuel (xs.drop (k - 1))

/-- Rust `slice::chunks(k)` (k > 0): split into consecutive groups of `k`,
the last one possibly shorter. -/
def chunks {α : Type} (k : Nat) (l : List α) : List (List α) :=
  chunksFuel k l.length l

/-- Wrapping `u32` subtraction of 20 (`token.expires_in - 20` on a `u32`). -/
def u32SubTwenty (e : Nat) : Nat := (e + 2 ^ 32 - 20) % 2 ^ 32

/-- Wrapping `u64` subtraction of 60 (`auth.expires_in as u64 - 60`). -/
def u64SubSixty (e : Nat) : Nat := (e + 2 ^ 64 - 60) % 2 ^ 64

/-! ## JSON values (model of `serde_json::Value`) -/

/-- Model of `serde_json::Value`.  Objects are association lists; numeric
values carry no payload because the modelled code never inspects them. -/
inductive Json where
  | null : Json
  | bool (b : Bool) : Json
  | num : Json
  | str (s : String) : Json
  | arr (elems : List Json) : Json
  | obj (fields : List (String × Json)) : Json

/-- First value bound to `k` in an association list, else `Json.null`. -/
def lookupField : List (String × Json) → String → Json
  | [], _ => .null
  | (k', v) :: rest, k => if k' = k then v else lookupField rest k

/-- `v[key]` read semantics of `serde_json::Value`: `Null` when `v` is not
an object or the key is absent. -/
def Json.idx (j : Json) (k : String) : Json :=
  match j with
  | .obj fs => lookupField fs k
  | _ => .null

/-- First value bound to `k`, as an `Option`. -/
def lookupField? : List (String × Json) → String → Option Json
  | [], _ => none
  | (k', v) :: rest, k => if k' = k then some v else lookupField? rest k

/-- `Value::get(key)`: `None` when not an object or the key is absent. -/
def Json.get? (j : Json) (k : String) : Option Json :=
  match j with
  | .obj fs => lookupField? fs k
  | _ => none

/-- `Value::as_str`. -/
def Json.asStr : Json → Option String
  | .str s => some s
  | _ => none

/-- `Value::as_array`. -/
def Json.asArr : Json → Option (List Json)
  | .arr a => some a
  | _ => none

/-- `Value::as_object`. -/
def Json.asObj : Json → Option (List (String × Json))
  | .obj o => some o
  | _ => none

/-! ## Response extractor (`parse_transfer_response`, transfer.rs 592-645) -/

/-- One pass of the `for (_key, event) in events_by_id` loop body of
`parse_transfer_response`: the accumulator holds the current
`(sender_change_cids, transfer_offer_cid)` options, updated whenever the
event is an `ExercisedTreeEvent` whose choice is
`TransferFactory_Transfer` and the respective field has the right shape. -/
def scanStep (acc : Option (List String) × Option String) (kv : String × Json) :
    Option (List String) × Option String :=
  match (kv.2).get? "ExercisedTreeEvent" with
  | none => acc
  | some ev =>
    if ((ev.idx "value").idx "choice").asStr = some "TransferFactory_Transfer" then
      let acc1 :=
        match (((ev.idx "value").idx "exerciseResult").idx "senderChangeCids").asArr with
        | some changeArray => some (changeArray.filterMap Json.asStr)
        | none => acc.1
      let acc2 :=
        match (((((ev.idx "value").idx "exerciseResult").idx "output").idx
            "value").idx "transferInstructionCid").asStr with
        | some out => some out
        | none => acc.2
      (acc1, acc2)
    else acc

/-- The whole event-collection loop of `parse_transfer_response`.  The
model folds over the association list in stored order; `serde_json`'s map
iterates in key order — the claims settled here depend only on which
events exist, not on the iteration order. -/
def scanEvents (events : List (String × Json)) : Option (List String) × Option String :=
  events.foldl scanStep (none, none)

/-- `parse_transfer_response` (transfer.rs 592-645).  The raw response
string is represented by its JSON parse (`none` = not valid JSON; the
model's error message for that case omits the serde error detail). -/
def parse_transfer_response (raw : Option Json) :
    Except String (List String × String × String) :=
  match raw with
  | none => .error "Failed to parse response JSON"
  | some response =>
    match ((response.idx "transactionTree").idx "updateId").asStr with
    | none => .error "Failed to find updateId in response"
    | some updateId =>
      match ((response.idx "transactionTree").idx "eventsById").asObj with
      | none => .error "Failed to find eventsById in response"
      | some eventsById =>
        match scanEvents eventsById with
        | (senderChangeCids?, transferOfferCid?) =>
          match senderChangeCids? with
          | none => .error "Failed to find senderChangeCids in response"
          | some senderChangeCids =>
            match transferOfferCid? with
            | none => .error "Failed to find transferInstructionCid in response"
            | some transferOfferCid => .ok (senderChangeCids, transferOfferCid, updateId)

/-- Spec-side predicate: the event is a matching `ExercisedTreeEvent`
carrying a `senderChangeCids` array. -/
def eventHasCids (kv : String × Json) : Bool :=
  match (kv.2).get? "ExercisedTreeEvent" with
  | none => false
  | some ev =>
    (((ev.idx "value").idx "choice").asStr = some "TransferFactory_Transfer") &&
    ((((ev.idx "value").idx "exerciseResult").idx "senderChangeCids").asArr).isSome

/-- Spec-side predicate: the event is a matching `ExercisedTreeEvent`
carrying a `transferInstructionCid` string. -/
def eventHasInstr (kv : String × Json) : Bool :=
  match (kv.2).get? "ExercisedTreeEvent" with
  | none => false
  | some ev =>
    (((ev.idx "value").idx "choice").asStr = some "TransferFactory_Transfer") &&
    ((((((ev.idx "value").idx "exerciseResult").idx "output").idx "value").idx
        "transferInstructionCid").asStr).isSome

/-- The success condition exactly as claim C3 words it: valid JSON, a
string `transactionTree.updateId`, an object `transactionTree.eventsById`,
and a SINGLE matching event providing both the `senderChangeCids` array
and the `transferInstructionCid` string. -/
def claimC3OkCond (raw : Option Json) : Bool :=
  match raw with
  | none => false
  | some response =>
    (((response.idx "transactionTree").idx "updateId").asStr).isSome &&
    match ((response.idx "transactionTree").idx "eventsById").asObj with
    | none => false
    | some eventsById => eventsById.any (fun kv => eventHasCids kv && eventHasInstr kv)

/-- The amended success condition (what the code actually checks): the two
fields may be provided by two different matching events. -/
def amendedC3OkCond (raw : Option Json) : Bool :=
  match raw with
  | none => false
  | some response =>
    (((response.idx "transactionTree").idx "updateId").asStr).isSome &&
    match ((response.idx "transactionTree").idx "eventsById").asObj with
    | none => false
    | some eventsById => eventsById.any eventHasCids && eventsById.any eventHasInstr

/-! ## Base64 and UTF-8 (`generate_unique_reference`, transfer.rs 648-653) -/

/-- The STANDARD base64 alphabet. -/
def b64Table : List Char :=
  "ABCDEFGHIJKLMNOPQRSTUVWXYZabcdefghijklmnopqrstuvwxyz0123456789+/".data

/-- Character for a sextet. -/
def b64Char (n : Nat) : Char := b64Table.getD n 'A'

/-- Sextet for a character (64 for characters outside the alphabet,
in particular for the pad character). -/
def b64Val (ch : Char) : Nat := b64Table.indexOf ch

/-- RFC 4648 base64 encoding with padding, over a byte list
(`base64::engine::general_purpose::STANDARD.encode`). -/
def encodeB64 : List Nat → List Char
  | [] => []
  | [a] => [b64Char (a / 4), b64Char (a % 4 * 16), '=', '=']
  | [a, b] => [b64Char (a / 4), b64Char (a % 4 * 16 + b / 16), b64Char (b % 16 * 4), '=']
  | a :: b :: c :: rest =>
    b64Char (a / 4) :: b64Char (a % 4 * 16 + b / 16) :: b64Char (b % 16 * 4 + c / 64) ::
      b64Char (c % 64) :: encodeB64 rest

/-- Base64 decoding, the left inverse of `encodeB64` used to prove it
injective. -/
def decodeB64 : List Char → List Nat
  | w :: x :: y :: z :: rest =>
    if y = '=' then [b64Val w * 4 + b64Val x / 16]
    else if z = '=' then
      [b64Val w * 4 + b64Val x / 16, b64Val x % 16 * 16 + b64Val y / 4]
    else
      (b64Val w * 4 + b64Val x / 16) :: (b64Val x % 16 * 16 + b64Val y / 4) ::
        (b64Val y % 4 * 64 + b64Val z) :: decodeB64 rest
  | _ => []

/-- UTF-8 bytes of one character (what `str::as_bytes` yields per char). -/
def utf8Char (c : Char) : List Nat :=
  if c.toNat < 128 then [c.toNat]
  else if c.toNat < 2048 then [192 + c.toNat / 64, 128 + c.toNat % 64]
  else if c.toNat < 65536 then
    [224 + c.toNat / 4096, 128 + c.toNat / 64 % 64, 128 + c.toNat % 64]
  else
    [240 + c.toNat / 262144, 128 + c.toNat / 4096 % 64, 128 + c.toNat / 64 % 64,
     128 + c.toNat % 64]

/-- UTF-8 bytes of a character list. -/
def utf8List : List Char → List Nat
  | [] => []
  | c :: cs => utf8Char c ++ utf8List cs

/-- UTF-8 bytes of a string (`str::as_bytes`). -/
def utf8Bytes (s : String) : List Nat := utf8List s.data

/-- `generate_unique_reference` (transfer.rs 648-653):
base64 of the UTF-8 bytes of `"{reference_base}-{sender}-{receiver}"`
(note the hyphen separators in the `format!` string). -/
def generate_unique_reference (reference_base sender receiver : String) : String :=
  ⟨encodeB64 (utf8Bytes (reference_base ++ "-" ++ sender ++ "-" ++ receiver))⟩

/-! ## Credential lifecycle (`TokenState`, transfer.rs 70-155) -/

/-- Model of `keycloak::login::Response`. -/
structure AuthResponse where
  access_token : String
  expires_in : Nat
  refresh_token : String
deriving DecidableEq

/-- A network round trip to the identity provider. -/
inductive NetCall where
  | refresh : NetCall
  | password : NetCall
deriving DecidableEq

/-- Model of `TokenState` (transfer.rs 70-79).  `expires_at` is seconds
since the epoch. -/
structure TokenState where
  access_token : String
  refresh_token : String
  client_id : String
  url : String
  username : String
  password : String
  expires_at : Nat
deriving DecidableEq

/-- `TokenState::new` (transfer.rs 82-111).  `loginResult` is the outcome
of the initial `keycloak::login::password` round trip, `now` the clock at
construction.  The constructor stores
`expires_at = now - (expires_in - 20)` (a `checked_sub`, falling back to
`now` when the subtraction is not representable) — it subtracts the
lifetime instead of adding it. -/
def TokenState.new (username password client_id url : String)
    (loginResult : Except String AuthResponse) (now : Nat) :
    Except String TokenState :=
  match loginResult with
  | .error e => .error e
  | .ok token =>
    let d := u32SubTwenty token.expires_in
    .ok { access_token := token.access_token
          refresh_token := token.refresh_token
          username := username
          password := password
          client_id := client_id
          url := url
          expires_at := if d ≤ now then now - d else now }

/-- `TokenState::get_fresh_token` (transfer.rs 114-154).  `now` is the
clock read that decides `needs_refresh`; `now'` is the second clock read
used when storing the new expiry.  `refreshResult` / `passwordResult` are
the outcomes the identity provider would return for the refresh exchange
and the fallback password login.  Returns the token-or-error, the updated
state, and the list of network round trips performed, in order. -/
def TokenState.get_fresh_token (st : TokenState) (now now' : Nat)
    (refreshResult passwordResult : Except String AuthResponse) :
    Except String String × TokenState × List NetCall :=
  if st.expires_at ≤ now then
    match refreshResult with
    | .ok auth =>
      (.ok auth.access_token,
       { st with access_token := auth.access_token,
                 refresh_token := auth.refresh_token,
                 expires_at := now' + u64SubSixty auth.expires_in },
       [.refresh])
    | .error e =>
      if strContains e "Token is not active" then
        match passwordResult with
        | .ok auth =>
          (.ok auth.access_token,
           { st with access_token := auth.access_token,
                     refresh_token := auth.refresh_token,
                     expires_at := now' + u64SubSixty auth.expires_in },
           [.refresh, .password])
        | .error e2 => (.error e2, st, [.refresh, .password])
      else
        (.error ("Failed to refresh JWT: " ++ e), st, [.refresh])
  else
    (.ok st.access_token, st, [])

/-! ## Chained transfer loop (`submit_sequential_chained`, transfer.rs 258-589) -/

/-- `Recipient` (transfer.rs 27-32). -/
structure Recipient where
  receiver : String
  amount : String
  reference : Option String
deriving DecidableEq

/-- `TransferResult` (transfer.rs 50-61).  `raw_response` carries the raw
ledger response, represented (as everywhere in this model) by its JSON
parse. -/
structure TransferResult where
  success : Bool
  transfer_index : Nat
  receiver : String
  amount : String
  transfer_offer_cid : Option String
  update_id : Option String
  reference : Option String
  raw_response : Option (Option Json)
  error : Option String

/-- The outcomes the external world supplies to one loop iteration: the
two clock reads and identity-provider outcomes consumed by
`get_fresh_token`, and the outcome of
`ledger::submit::wait_for_transaction_tree` (`.ok` carries the raw
response). -/
structure IterOracle where
  tokenNow : Nat
  tokenNow' : Nat
  refreshResult : Except String AuthResponse
  passwordResult : Except String AuthResponse
  ledgerResult : Except String (Option Json)

/-- The fields of `SequentialChainedParams` (transfer.rs 34-48) that the
modelled outputs depend on.  The ledger/registry endpoints, the
instrument id and timestamps flow only into the opaque submission
requests, whose outcomes the oracle supplies, so they are not carried.
`registry_response` (the optional pre-fetched context) is `Option Unit`
because the context's content likewise only flows into submissions.
`has_callback` says whether `on_transfer_complete` was supplied. -/
structure SeqParams where
  recipients : List Recipient
  sender : String
  initial_holding_cids : List String
  reference_base : Option String
  has_callback : Bool
  registry_response : Option Unit

/-- The per-recipient reference (transfer.rs 407-413): from
`reference_base` via `generate_unique_reference`, overridden by a
recipient-supplied reference. -/
def computeReference (reference_base : Option String) (sender : String)
    (recipient : Recipient) : Option String :=
  match recipient.reference with
  | some uniqueRef => some uniqueRef
  | none => reference_base.map fun base => generate_unique_reference base sender recipient.receiver

/-- One iteration of the `for (idx, recipient)` loop (transfer.rs
342-576), as a function of the current holding pool and token state:
returns the produced `TransferResult`, the pool for the next iteration,
and the token state after the iteration. -/
def stepOutcome (p : SeqParams) (o : IterOracle) (idx : Nat) (recipient : Recipient)
    (pool : List String) (tok : TokenState) : TransferResult × List String × TokenState :=
  if pool.isEmpty then
    ({ success := false, transfer_index := idx, receiver := recipient.receiver,
       amount := recipient.amount, transfer_offer_cid := none, update_id := none,
       reference := none, raw_response := none,
       error := some "No UTXOs available for transfer" },
     pool, tok)
  else
    match tok.get_fresh_token o.tokenNow o.tokenNow' o.refreshResult o.passwordResult with
    | (tokenRes, tok', _calls) =>
      match tokenRes with
      | .error e =>
        ({ success := false, transfer_index := idx, receiver := recipient.receiver,
           amount := recipient.amount, transfer_offer_cid := none, update_id := none,
           reference := none, raw_response := none,
           error := some ("Failed to get fresh token: " ++ e) },
         pool, tok')
      | .ok _currentToken =>
        let transferReference := computeReference p.reference_base p.sender recipient
        match o.ledgerResult with
        | .ok responseRaw =>
          match parse_transfer_response responseRaw with
          | .ok (senderChangeCids, transferOfferCid, updateId) =>
            ({ success := true, transfer_index := idx, receiver := recipient.receiver,
               amount := recipient.amount, transfer_offer_cid := some transferOfferCid,
               update_id := some updateId, reference := transferReference,
               raw_response := some responseRaw, error := none },
             senderChangeCids, tok')
          | .error e =>
            ({ success := false, transfer_index := idx, receiver := recipient.receiver,
               amount := recipient.amount, transfer_offer_cid := none, update_id := none,
               reference := transferReference, raw_response := some responseRaw,
               error := some ("Failed to parse transfer response: " ++ e) },
             pool, tok')
        | .error e =>
          ({ success := false, transfer_index := idx, receiver := recipient.receiver,
             amount := recipient.amount, transfer_offer_cid := none, update_id := none,
             reference := transferReference, raw_response := none,
             error := some ("Ledger submission failed: " ++ e) },
           pool, tok')

/-- The loop-carried state of `submit_sequential_chained`: accumulated
results and counters, the current holding pool, the token state, and a
ghost trace of the observer-callback invocations in order. -/
structure LoopState where
  results : List TransferResult
  pool : List String
  successful_count : Nat
  failed_count : Nat
  trace : List TransferResult
  token : TokenState

/-- The observer callback: each result is handed to it (when supplied)
synchronously, right when the result is appended. -/
def notifyObserver (has_callback : Bool) (tr : List TransferResult)
    (r : TransferResult) : List TransferResult :=
  if has_callback then tr ++ [r] else tr

/-- One loop iteration acting on the loop state. -/
def stepTransfer (p : SeqParams) (o : IterOracle) (idx : Nat) (recipient : Recipient)
    (s : LoopState) : LoopState :=
  match stepOutcome p o idx recipient s.pool s.token with
  | (result, pool', tok') =>
    { results := s.results ++ [result]
      pool := pool'
      successful_count := s.successful_count + (if result.success then 1 else 0)
      failed_count := s.failed_count + (if result.success then 0 else 1)
      trace := notifyObserver p.has_callback s.trace result
      token := tok' }

/-- The `for (idx, recipient) in recipients.enumerate()` loop. -/
def chainLoop (p : SeqParams) (env : Nat → IterOracle) :
    Nat → List Recipient → LoopState → LoopState
  | _, [], s => s
  | idx, r :: rest, s => chainLoop p env (idx + 1) rest (stepTransfer p (env idx) idx r s)

/-- What `submit_sequential_chained` returns, plus the ghost observables
of the model (`trace`, final pool, final token state). -/
structure ChainOutcome where
  results : List TransferResult
  successful_count : Nat
  failed_count : Nat
  trace : List TransferResult
  final_pool : List String
  final_token : TokenState

/-- `submit_sequential_chained` (transfer.rs 258-589).  `registryResult`
is the outcome the registry would return for the one-time context fetch
(consulted only when no pre-fetched `registry_response` is supplied);
`env i` supplies the outcomes of the network calls of iteration `i`. -/
def submit_sequential_chained (p : SeqParams) (tok : TokenState)
    (registryResult : Except String Unit) (env : Nat → IterOracle) :
    Except String ChainOutcome :=
  if p.recipients.isEmpty then .error "No recipients to process"
  else
    match (match p.registry_response with
           | some u => Except.ok u
           | none => registryResult) with
    | .error e => .error e
    | .ok _ =>
      match chainLoop p env 0 p.recipients
          { results := [], pool := p.initial_holding_cids, successful_count := 0,
            failed_count := 0, trace := [], token := tok } with
      | s =>
        .ok { results := s.results, successful_count := s.successful_count,
              failed_count := s.failed_count, trace := s.trace,
              final_pool := s.pool, final_token := s.token }

/-! ## Batch controller (`accept_all`, accept.rs 141-374; `withdraw_all`,
crates/cbtc/src/withdraw.rs 202-381, identical batching logic) -/

/-- The fields of a pending `TransferInstruction` contract the batch
controller reads: its contract id and the (doubly optional)
`create_argument` JSON. -/
structure PendingTransfer where
  contract_id : String
  create_argument : Option (Option Json)

/-- `AcceptResult` (accept.rs 36-43). -/
structure AcceptResult where
  success : Bool
  contract_id : String
  amount : Option String
  sender : Option String
  error : Option String
deriving DecidableEq

/-- `AcceptAllResult` (accept.rs 46-51). -/
structure AcceptAllResult where
  results : List AcceptResult
  successful_count : Nat
  failed_count : Nat

/-- Extraction of `(amount, sender)` from `create_argument` (accept.rs
240-255). -/
def extractDetails (t : PendingTransfer) : Option String × Option String :=
  match t.create_argument with
  | some (some createArg) =>
    match createArg.get? "transfer" with
    | some transferData =>
      ((transferData.get? "amount").bind Json.asStr,
       (transferData.get? "sender").bind Json.asStr)
    | none => (none, none)
  | _ => (none, none)

/-- The per-batch result records (accept.rs 225-357): every item of a
batch is marked successful on submission success, and failed — with the
same error string — on submission failure. -/
def batchResults (batch : List PendingTransfer) (outcome : Except String Unit) :
    List AcceptResult :=
  batch.map fun t =>
    match extractDetails t with
    | (amount, sender) =>
      match outcome with
      | .ok _ =>
        { success := true, contract_id := t.contract_id, amount := amount,
          sender := sender, error := none }
      | .error e =>
        { success := false, contract_id := t.contract_id, amount := amount,
          sender := sender, error := some e }

/-- The sequential per-batch loop (accept.rs 208-361).  `submitBatch i`
is the ledger's outcome for the i-th multi-command submission.  Returns
the concatenated results and the success/failure tallies. -/
def runBatches (submitBatch : Nat → Except String Unit) (batchIdx : Nat) :
    List (List PendingTransfer) → List AcceptResult × Nat × Nat
  | [] => ([], 0, 0)
  | batch :: rest =>
    let outcome := submitBatch batchIdx
    let restOut := runBatches submitBatch (batchIdx + 1) rest
    (batchResults batch outcome ++ restOut.1,
     (if exOk outcome then batch.length else 0) + restOut.2.1,
     (if exOk outcome then 0 else batch.length) + restOut.2.2)

/-- `accept_all` (accept.rs 141-374): keycloak login, fetch of the pending
transfers, early return on none, one shared accept-context fetch, then
batches of 5.  The withdraw variant (`withdraw_all`) has the same
structure. -/
def accept_all (authResult : Except String Unit)
    (pendingResult : Except String (List PendingTransfer))
    (contextResult : Except String Unit)
    (submitBatch : Nat → Except String Unit) : Except String AcceptAllResult :=
  match authResult with
  | .error e => .error ("Authentication failed: " ++ e)
  | .ok _ =>
    match pendingResult with
    | .error e => .error e
    | .ok pendingTransfers =>
      if pendingTransfers.isEmpty then
        .ok { results := [], successful_count := 0, failed_count := 0 }
      else
        match contextResult with
        | .error e => .error e
        | .ok _ =>
          match runBatches submitBatch 0 (chunks 5 pendingTransfers) with
          | (results, successful_count, failed_count) =>
            .ok { results := results, successful_count := successful_count,
                  failed_count := failed_count }

/-! ## Consolidation (`consolidate_utxos`, consolidate.rs 113-289) -/

/-- An external interaction of `consolidate_utxos`. -/
inductive ExtCall where
  | activeContracts : ExtCall
  | registryFetch : ExtCall
  | ledgerSubmit : ExtCall
deriving DecidableEq

/-- `consolidate_utxos` (consolidate.rs 113-289).  `input` is
`params.input_holding_cids`; `fetched` the contract ids the
active-contracts service would return; `proceed` models everything from
line 140 on (total-amount computation, registry fetch, submission,
response parsing) together with the external calls that path performs —
the claims settled against this model only exercise the early-exit
branches, which are embedded exactly.  Returns the result and the trace
of external calls. -/
def consolidate_utxos (input : Option (List String))
    (fetched : Except String (List String))
    (proceed : List String → Except String (List String) × List ExtCall) :
    Except String (List String) × List ExtCall :=
  match input with
  | some cids =>
    if cids.isEmpty then (.error "No holdings to consolidate", [])
    else if cids.length == 1 then (.ok cids, [])
    else
      match proceed cids with
      | (r, calls) => (r, calls)
  | none =>
    match fetched with
    | .error e => (.error e, [.activeContracts])
    | .ok cids =>
      if cids.isEmpty then (.error "No holdings to consolidate", [.activeContracts])
      else if cids.length == 1 then (.ok cids, [.activeContracts])
      else
        match proceed cids with
        | (r, calls) => (r, .activeContracts :: calls)

/-! ## Concrete inputs used by counterexamples and witnesses -/

/-- A matching exercised event that provides only `senderChangeCids`. -/
def cexEventCids : Json :=
  .obj [("ExercisedTreeEvent", .obj [("value", .obj
    [("choice", .str "TransferFactory_Transfer"),
     ("exerciseResult", .obj [("senderChangeCids", .arr [])])])])]

/-- A matching exercised event that provides only `transferInstructionCid`. -/
def cexEventInstr : Json :=
  .obj [("ExercisedTreeEvent", .obj [("value", .obj
    [("choice", .str "TransferFactory_Transfer"),
     ("exerciseResult", .obj [("output", .obj [("value", .obj
       [("transferInstructionCid", .str "cid0")])])])])])]

/-- A response where the two extracted fields come from two different
events, so no single event provides both. -/
def cexResponseC3 : Json :=
  .obj [("transactionTree", .obj
    [("updateId", .str "upd0"),
     ("eventsById", .obj [("e1", cexEventCids), ("e2", cexEventInstr)])])]

/-- A token state whose expiry deadline is already in the past. -/
def dummyTok : TokenState :=
  { access_token := "at0", refresh_token := "rt0", client_id := "cid0",
    url := "url0", username := "user0", password := "pw0", expires_at := 0 }

/-- An oracle none of whose outcomes are consulted on the empty-pool path. -/
def dummyOracle : IterOracle :=
  { tokenNow := 0, tokenNow' := 0, refreshResult := .error "unused",
    passwordResult := .error "unused", ledgerResult := .error "unused" }

/-- Parameters for a run with one recipient and no initial holdings. -/
def cexParamsC4 : SeqParams :=
  { recipients := [{ receiver := "rcv0", amount := "1.0", reference := none }],
    sender := "snd0", initial_holding_cids := [], reference_base := none,
    has_callback := false, registry_response := some () }

/-- Twelve pending transfers. -/
def items12 : List PendingTransfer :=
  (idxRange 1 12).map fun i => { contract_id := "t" ++ toString i, create_argument := none }

/-- A per-batch ledger oracle that fails exactly the second batch. -/
def sb12 (b : Nat) : Except String Unit :=
  if b = 1 then .error "boom" else .ok ()

/-! ## Lemmas about the response extractor -/

theorem scanStep_fst_isSome (acc : Option (List String) × Option String)
    (kv : String × Json) :
    ((scanStep acc kv).1).isSome = (acc.1.isSome || eventHasCids kv) := by
  unfold scanStep eventHasCids
  cases h : (kv.2).get? "ExercisedTreeEvent" with
  | none => simp
  | some ev =>
    by_cases hc : ((ev.idx "value").idx "choice").asStr = some "TransferFactory_Transfer"
    · cases ha : (((ev.idx "value").idx "exerciseResult").idx "senderChangeCids").asArr <;>
        simp [hc, ha]
    · simp [hc]

theorem scanStep_snd_isSome (acc : Option (List String) × Option String)
    (kv : String × Json) :
    ((scanStep acc kv).2).isSome = (acc.2.isSome || eventHasInstr kv) := by
  unfold scanStep eventHasInstr
  cases h : (kv.2).get? "ExercisedTreeEvent" with
  | none => simp
  | some ev =>
    by_cases hc : ((ev.idx "value").idx "choice").asStr = some "TransferFactory_Transfer"
    · cases ha : (((((ev.idx "value").idx "exerciseResult").idx "output").idx
          "value").idx "transferInstructionCid").asStr <;> simp [hc, ha]
    · simp [hc]

theorem foldl_scanStep_fst (l : List (String × Json)) :
    ∀ acc : Option (List String) × Option String,
      ((l.foldl scanStep acc).1).isSome = (acc.1.isSome || l.any eventHasCids) := by
  induction l with
  | nil => intro acc; simp
  | cons kv rest ih =>
    intro acc
    rw [List.foldl_cons, ih, scanStep_fst_isSome, List.any_cons]
    rw [Bool.or_assoc]

theorem foldl_scanStep_snd (l : List (String × Json)) :
    ∀ acc : Option (List String) × Option String,
      ((l.foldl scanStep acc).2).isSome = (acc.2.isSome || l.any eventHasInstr) := by
  induction l with
  | nil => intro acc; simp
  | cons kv rest ih =>
    intro acc
    rw [List.foldl_cons, ih, scanStep_snd_isSome, List.any_cons]
    rw [Bool.or_assoc]

theorem scanEvents_fst_isSome (l : List (String × Json)) :
    ((scanEvents l).1).isSome = l.any eventHasCids := by
  unfold scanEvents; rw [foldl_scanStep_fst]; simp

theorem scanEvents_snd_isSome (l : List (String × Json)) :
    ((scanEvents l).2).isSome = l.any eventHasInstr := by
  unfold scanEvents; rw [foldl_scanStep_snd]; simp

/-- C3 (amended part): `parse_transfer_response` succeeds exactly when the
input is valid JSON with a string `transactionTree.updateId`, an object
`transactionTree.eventsById`, some matching event providing a
`senderChangeCids` array and some (possibly different) matching event
providing a `transferInstructionCid` string.  As a Lean function it is
total and cannot mutate its argument. -/
theorem c3_parse_ok_iff (raw : Option Json) :
    exOk (parse_transfer_response raw) = amendedC3OkCond raw := by
  unfold parse_transfer_response amendedC3OkCond
  cases raw with
  | none => rfl
  | some response =>
    cases hu : ((response.idx "transactionTree").idx "updateId").asStr with
    | none => simp [hu, exOk]
    | some updateId =>
      cases ho : ((response.idx "transactionTree").idx "eventsById").asObj with
      | none => simp [hu, ho, exOk]
      | some eventsById =>
        have h1 := scanEvents_fst_isSome eventsById
        have h2 := scanEvents_snd_isSome eventsById
        simp only [hu, ho]
        cases hc : (scanEvents eventsById).1 with
        | none =>
          have e1 : eventsById.any eventHasCids = false := by rw [← h1, hc]; rfl
          simp [exOk, e1, hc]
        | some cids =>
          have e1 : eventsById.any eventHasCids = true := by rw [← h1, hc]; rfl
          cases hi : (scanEvents eventsById).2 with
          | none =>
            have e2 : eventsById.any eventHasInstr = false := by rw [← h2, hi]; rfl
            simp [exOk, e1, e2, hc, hi]
          | some instr =>
            have e2 : eventsById.any eventHasInstr = true := by rw [← h2, hi]; rfl
            simp [exOk, e1, e2, hc, hi]

/-- C3 (counterexample): a response whose `senderChangeCids` and
`transferInstructionCid` come from two different matching events is
parsed successfully, although no single matching event provides both —
refuting the claim's single-event success condition. -/
theorem c3_counterexample :
    exOk (parse_transfer_response (some cexResponseC3)) = true ∧
      claimC3OkCond (some cexResponseC3) = false := by
  constructor <;> decide

/-! ## Lemmas about the credential lifecycle -/

theorem u64SubSixty_eq (e : Nat) (h60 : 60 ≤ e) (hlt : e < 2 ^ 64) :
    u64SubSixty e = e - 60 := by
  unfold u64SubSixty; omega

/-- C5: `get_fresh_token` attempts a refresh exchange iff the deadline has
passed; a successful refresh updates both tokens and stores
`expires_at = now' + (expires_in - 60)` (`now'` being the clock at the
update); a refresh rejected with the "Token is not active" marker falls
back to a password login updating state identically; any other refresh
failure is returned as an error with state unchanged. -/
theorem c5_get_fresh_token_spec (st : TokenState) (now now' : Nat)
    (rR pR : Except String AuthResponse) :
    ((NetCall.refresh ∈ (st.get_fresh_token now now' rR pR).2.2) ↔ st.expires_at ≤ now) ∧
    (now < st.expires_at →
      st.get_fresh_token now now' rR pR = (.ok st.access_token, st, [])) ∧
    (∀ auth, st.expires_at ≤ now → rR = .ok auth → 60 ≤ auth.expires_in →
      auth.expires_in < 2 ^ 64 →
      st.get_fresh_token now now' rR pR =
        (.ok auth.access_token,
         { st with access_token := auth.access_token,
                   refresh_token := auth.refresh_token,
                   expires_at := now' + (auth.expires_in - 60) },
         [.refresh])) ∧
    (∀ e auth, st.expires_at ≤ now → rR = .error e →
      strContains e "Token is not active" = true → pR = .ok auth →
      60 ≤ auth.expires_in → auth.expires_in < 2 ^ 64 →
      st.get_fresh_token now now' rR pR =
        (.ok auth.access_token,
         { st with access_token := auth.access_token,
                   refresh_token := auth.refresh_token,
                   expires_at := now' + (auth.expires_in - 60) },
         [.refresh, .password])) ∧
    (∀ e, st.expires_at ≤ now → rR = .error e →
      strContains e "Token is not active" = false →
      st.get_fresh_token now now' rR pR =
        (.error ("Failed to refresh JWT: " ++ e), st, [.refresh])) := by
  unfold TokenState.get_fresh_token
  by_cases hd : st.expires_at ≤ now
  · simp only [if_pos hd]
    refine ⟨?_, ?_, ?_, ?_, ?_⟩
    · constructor
      · intro _; exact hd
      · intro _
        cases rR with
        | ok auth => simp
        | error e =>
          by_cases hm : strContains e "Token is not active" = true
          · cases pR <;> simp [hm]
          · simp [Bool.not_eq_true] at hm
            simp [hm]
    · intro hlt; omega
    · intro auth _ hr h60 hlt
      subst hr
      simp [u64SubSixty_eq auth.expires_in h60 hlt]
    · intro e auth _ hr hm hp h60 hlt
      subst hr; subst hp
      simp [hm, u64SubSixty_eq auth.expires_in h60 hlt]
    · intro e _ hr hm
      subst hr
      simp [hm]
  · simp only [if_neg hd]
    refine ⟨?_, ?_, ?_, ?_, ?_⟩
    · simp; omega
    · intro _; trivial
    · intro auth h; omega
    · intro e auth h; omega
    · intro e h; omega

/-- C5 witness: a due refresh that succeeds with a 300-second lifetime. -/
theorem c5_witness :
    TokenState.get_fresh_token dummyTok 5 6 (.ok ⟨"a2", 300, "r2"⟩) (.error "unused") =
      (.ok "a2",
       { dummyTok with access_token := "a2", refresh_token := "r2",
                       expires_at := 6 + (300 - 60) },
       [.refresh]) := by
  have h := (c5_get_fresh_token_spec dummyTok 5 6 (.ok ⟨"a2", 300, "r2"⟩)
    (.error "unused")).2.2.1 ⟨"a2", 300, "r2"⟩ (by decide) rfl (by decide) (by decide)
  exact h

/-- C6 (counterexample): when the refresh exchange is rejected with the
"Token is not active" marker, a due call performs TWO round trips to the
identity provider (the refresh attempt and the fallback password login),
not exactly one. -/
theorem c6_counterexample :
    dummyTok.expires_at ≤ 5 ∧
      (TokenState.get_fresh_token dummyTok 5 6 (.error "Token is not active")
          (.ok ⟨"a2", 300, "r2"⟩)).2.2.length = 2 := by
  constructor <;> decide

/-- C6 (amended): a due call performs exactly one round trip when the
refresh succeeds or fails without the "Token is not active" marker, and
exactly two (refresh, then password login) when the refresh is rejected
with that marker; a call before the deadline performs zero round trips;
and after a successful refresh with `expires_in > 60`, a second call made
no later than the stored clock reading performs zero round trips. -/
theorem c6_round_trips (st : TokenState) (now now' : Nat)
    (rR pR : Except String AuthResponse) :
    (now < st.expires_at → (st.get_fresh_token now now' rR pR).2.2 = []) ∧
    (∀ auth, st.expires_at ≤ now → rR = .ok auth →
      (st.get_fresh_token now now' rR pR).2.2 = [.refresh]) ∧
    (∀ e, st.expires_at ≤ now → rR = .error e →
      strContains e "Token is not active" = false →
      (st.get_fresh_token now now' rR pR).2.2 = [.refresh]) ∧
    (∀ e, st.expires_at ≤ now → rR = .error e →
      strContains e "Token is not active" = true →
      (st.get_fresh_token now now' rR pR).2.2 = [.refresh, .password]) ∧
    (∀ auth, st.expires_at ≤ now → rR = .ok auth → 60 < auth.expires_in →
      auth.expires_in < 2 ^ 64 →
      ∀ now2 now3 rR2 pR2, now2 ≤ now' →
        (((st.get_fresh_token now now' rR pR).2.1).get_fresh_token
            now2 now3 rR2 pR2).2.2 = []) := by
  unfold TokenState.get_fresh_token
  by_cases hd : st.expires_at ≤ now
  · simp only [if_pos hd]
    refine ⟨fun h => absurd hd (by omega), ?_, ?_, ?_, ?_⟩
    · intro auth _ hr; subst hr; simp
    · intro e _ hr hm; subst hr; simp [hm]
    · intro e _ hr hm; subst hr; cases pR <;> simp [hm]
    · intro auth _ hr h60 hlt now2 now3 rR2 pR2 h2
      subst hr
      simp only
      rw [if_neg]
      simp only [u64SubSixty_eq auth.expires_in (by omega) hlt]
      omega
  · simp only [if_neg hd]
    exact ⟨fun _ => trivial, fun auth h => absurd h hd, fun e h => absurd h hd,
           fun e h => absurd h hd, fun auth h => absurd h hd⟩

/-- C6 witness: a due, successful refresh makes one round trip, and the
immediately following call makes none. -/
theorem c6_witness :
    (TokenState.get_fresh_token dummyTok 5 6 (.ok ⟨"a2", 300, "r2"⟩)
        (.error "unused")).2.2 = [.refresh] ∧
      (((TokenState.get_fresh_token dummyTok 5 6 (.ok ⟨"a2", 300, "r2"⟩)
            (.error "unused")).2.1).get_fresh_token 6 7 (.error "unused")
          (.error "unused")).2.2 = [] := by
  have h := c6_round_trips dummyTok 5 6 (.ok ⟨"a2", 300, "r2"⟩) (.error "unused")
  exact ⟨h.2.1 ⟨"a2", 300, "r2"⟩ (by decide) rfl,
         h.2.2.2.2 ⟨"a2", 300, "r2"⟩ (by decide) rfl (by decide) (by decide)
           6 7 (.error "unused") (.error "unused") (by decide)⟩

/-- C9: after every successful `TokenState::new` the stored expiry
deadline is at or before the construction time (the constructor subtracts
`expires_in - 20` from `now` instead of adding it), so any later
`get_fresh_token` call finds the deadline passed and attempts a network
refresh. -/
theorem c9_new_expiry_in_past (u pw cid url : String) (auth : AuthResponse)
    (now : Nat) (st : TokenState)
    (h : TokenState.new u pw cid url (.ok auth) now = .ok st) :
    st.expires_at ≤ now ∧
      ∀ now1 now2 rR pR, now ≤ now1 →
        NetCall.refresh ∈ (st.get_fresh_token now1 now2 rR pR).2.2 := by
  unfold TokenState.new at h
  simp only [Except.ok.injEq] at h
  have hexp : st.expires_at ≤ now := by
    rw [← h]
    dsimp only
    split <;> omega
  refine ⟨hexp, ?_⟩
  intro now1 now2 rR pR h1
  unfold TokenState.get_fresh_token
  rw [if_pos (by omega)]
  cases rR with
  | ok a => simp
  | error e =>
    by_cases hm : strContains e "Token is not active" = true
    · cases pR <;> simp [hm]
    · simp [Bool.not_eq_true] at hm
      simp [hm]

/-- C9 witness: a concrete construction at time 1000 with a 300-second
token lifetime stores a deadline in the past and refreshes immediately. -/
theorem c9_witness :
    ∃ st, TokenState.new "u" "p" "c" "x" (.ok ⟨"a1", 300, "r1"⟩) 1000 = .ok st ∧
      st.expires_at ≤ 1000 ∧
      NetCall.refresh ∈ (st.get_fresh_token 1000 1001 (.ok ⟨"a2", 300, "r2"⟩)
          (.error "unused")).2.2 := by
  refine ⟨{ access_token := "a1", refresh_token := "r1", client_id := "c",
            url := "x", username := "u", password := "p", expires_at := 720 },
          by rfl, ?_⟩
  have h := c9_new_expiry_in_past "u" "p" "c" "x" ⟨"a1", 300, "r1"⟩ 1000
    { access_token := "a1", refresh_token := "r1", client_id := "c",
      url := "x", username := "u", password := "p", expires_at := 720 }
    (by rfl)
  exact ⟨h.1, h.2 1000 1001 (.ok ⟨"a2", 300, "r2"⟩) (.error "unused") (by decide)⟩

/-! ## Lemmas about the chained-transfer loop -/

theorem stepOutcome_fields (p : SeqParams) (o : IterOracle) (idx : Nat)
    (r : Recipient) (pool : List String) (tok : TokenState) :
    ((stepOutcome p o idx r pool tok).1).transfer_index = idx ∧
      ((stepOutcome p o idx r pool tok).1).receiver = r.receiver ∧
      ((stepOutcome p o idx r pool tok).1).amount = r.amount := by
  unfold stepOutcome
  repeat' split
  all_goals exact ⟨rfl, rfl, rfl⟩

theorem stepTransfer_shape (p : SeqParams) (o : IterOracle) (idx : Nat)
    (r : Recipient) (s : LoopState) :
    (stepTransfer p o idx r s).results =
        s.results ++ [(stepOutcome p o idx r s.pool s.token).1] ∧
      (stepTransfer p o idx r s).trace =
        notifyObserver p.has_callback s.trace (stepOutcome p o idx r s.pool s.token).1 ∧
      (stepTransfer p o idx r s).pool = (stepOutcome p o idx r s.pool s.token).2.1 ∧
      (stepTransfer p o idx r s).successful_count + (stepTransfer p o idx r s).failed_count =
        s.successful_count + s.failed_count + 1 := by
  unfold stepTransfer
  refine ⟨rfl, rfl, rfl, ?_⟩
  dsimp only
  by_cases h : ((stepOutcome p o idx r s.pool s.token).1).success <;> simp [h] <;> omega

theorem chainLoop_spec (p : SeqParams) (env : Nat → IterOracle) (rs : List Recipient) :
    ∀ (idx : Nat) (s : LoopState),
      ∃ new : List TransferResult,
        (chainLoop p env idx rs s).results = s.results ++ new ∧
        new.map (fun r => r.transfer_index) = idxRange idx rs.length ∧
        new.map (fun r => r.receiver) = rs.map (fun r => r.receiver) ∧
        new.map (fun r => r.amount) = rs.map (fun r => r.amount) ∧
        (chainLoop p env idx rs s).trace =
          s.trace ++ (if p.has_callback then new else []) ∧
        (chainLoop p env idx rs s).successful_count +
            (chainLoop p env idx rs s).failed_count =
          s.successful_count + s.failed_count + rs.length := by
  induction rs with
  | nil =>
    intro idx s
    exact ⟨[], by simp [chainLoop], by simp [idxRange], by simp, by simp,
           by simp [chainLoop], by simp [chainLoop]⟩
  | cons r rest ih =>
    intro idx s
    have hloop : chainLoop p env idx (r :: rest) s =
        chainLoop p env (idx + 1) rest (stepTransfer p (env idx) idx r s) := rfl
    obtain ⟨new, h1, h2, h3, h4, h5, h6⟩ := ih (idx + 1) (stepTransfer p (env idx) idx r s)
    obtain ⟨hf1, hf2, hf3⟩ := stepOutcome_fields p (env idx) idx r s.pool s.token
    obtain ⟨hs1, hs2, hs3, hs4⟩ := stepTransfer_shape p (env idx) idx r s
    refine ⟨(stepOutcome p (env idx) idx r s.pool s.token).1 :: new, ?_, ?_, ?_, ?_, ?_, ?_⟩
    · rw [hloop, h1, hs1]; simp
    · simp [h2, hf1, idxRange]
    · simp [h3, hf2]
    · simp [h4, hf3]
    · rw [hloop, h5, hs2]
      unfold notifyObserver
      by_cases hcb : p.has_callback <;> simp [hcb]
    · rw [hloop, h6, hs4]
      simp only [List.length_cons]
      omega

/-- C1: for every non-empty recipient list (and an available registry
context), `submit_sequential_chained` returns one `TransferResult` per
recipient, in input order — the i-th result carries `transfer_index = i`
and the i-th recipient's receiver and amount — and the observer callback,
when supplied, is invoked exactly once per result in that same order
(`trace` records the callback invocations in invocation order). -/
theorem c1_results_in_order (p : SeqParams) (tok : TokenState)
    (registryResult : Except String Unit) (env : Nat → IterOracle)
    (hne : p.recipients ≠ [])
    (hreg : p.registry_response = some () ∨ registryResult = .ok ()) :
    ∃ out, submit_sequential_chained p tok registryResult env = .ok out ∧
      out.results.length = p.recipients.length ∧
      out.results.map (fun r => r.transfer_index) = idxRange 0 p.recipients.length ∧
      out.results.map (fun r => r.receiver) = p.recipients.map (fun r => r.receiver) ∧
      out.results.map (fun r => r.amount) = p.recipients.map (fun r => r.amount) ∧
      (p.has_callback = true → out.trace = out.results) ∧
      (p.has_callback = false → out.trace = []) := by
  unfold submit_sequential_chained
  rw [if_neg (by simpa [List.isEmpty_iff] using hne)]
  have hm : (match p.registry_response with
             | some u => Except.ok u
             | none => registryResult) = Except.ok () := by
    rcases hreg with h | h
    · rw [h]
    · cases hr : p.registry_response with
      | some u => cases u; rfl
      | none => rw [h]
  rw [hm]
  obtain ⟨new, h1, h2, h3, h4, h5, h6⟩ := chainLoop_spec p env p.recipients 0
    { results := [], pool := p.initial_holding_cids, successful_count := 0,
      failed_count := 0, trace := [], token := tok }
  refine ⟨_, rfl, ?_, ?_, ?_, ?_, ?_, ?_⟩
  · dsimp only
    rw [h1]
    simp only [List.nil_append]
    have := congrArg List.length h3
    simpa using this
  · dsimp only; rw [h1]; simpa using h2
  · dsimp only; rw [h1]; simpa using h3
  · dsimp only; rw [h1]; simpa using h4
  · intro hcb; dsimp only; rw [h1, h5, hcb]; simp
  · intro hcb; dsimp only; rw [h5, hcb]; simp

/-- C1 witness: the one-recipient run with a pre-fetched context. -/
theorem c1_witness :
    ∃ out, submit_sequential_chained cexParamsC4 dummyTok (.ok ())
        (fun _ => dummyOracle) = .ok out ∧
      out.results.length = cexParamsC4.recipients.length ∧
      out.results.map (fun r => r.transfer_index) =
        idxRange 0 cexParamsC4.recipients.length ∧
      out.results.map (fun r => r.receiver) =
        cexParamsC4.recipients.map (fun r => r.receiver) ∧
      out.results.map (fun r => r.amount) =
        cexParamsC4.recipients.map (fun r => r.amount) ∧
      (cexParamsC4.has_callback = true → out.trace = out.results) ∧
      (cexParamsC4.has_callback = false → out.trace = []) :=
  c1_results_in_order cexParamsC4 dummyTok (.ok ()) (fun _ => dummyOracle)
    (by decide) (Or.inl rfl)

/-- C2: within one loop iteration, the holding pool is returned unchanged
whenever the iteration produces a failed result (empty pool, token
failure, ledger submission failure, response-parse failure), and is
replaced by exactly the extracted `senderChangeCids` whenever it produces
a successful result; and the loop threads the pool through `stepOutcome`
alone. -/
theorem c2_pool_frame (p : SeqParams) (o : IterOracle) (idx : Nat)
    (r : Recipient) (pool : List String) (tok : TokenState) :
    (((stepOutcome p o idx r pool tok).1).success = false →
      (stepOutcome p o idx r pool tok).2.1 = pool) ∧
    (((stepOutcome p o idx r pool tok).1).success = true →
      ∃ raw senderChangeCids transferOfferCid updateId,
        o.ledgerResult = .ok raw ∧
        parse_transfer_response raw = .ok (senderChangeCids, transferOfferCid, updateId) ∧
        (stepOutcome p o idx r pool tok).2.1 = senderChangeCids ∧
        ((stepOutcome p o idx r pool tok).1).transfer_offer_cid = some transferOfferCid ∧
        ((stepOutcome p o idx r pool tok).1).update_id = some updateId) ∧
    (∀ s : LoopState, (stepTransfer p o idx r s).pool =
      (stepOutcome p o idx r s.pool s.token).2.1) := by
  rcases htok : tok.get_fresh_token o.tokenNow o.tokenNow' o.refreshResult o.passwordResult
    with ⟨tokenRes, tok', calls⟩
  refine ⟨?_, ?_, fun s => rfl⟩
  · by_cases hpool : pool.isEmpty
    · intro _; simp [stepOutcome, hpool]
    · cases tokenRes with
      | error e => intro _; simp [stepOutcome, hpool, htok]
      | ok t =>
        cases hl : o.ledgerResult with
        | error e => intro _; simp [stepOutcome, hpool, htok, hl]
        | ok raw =>
          cases hp : parse_transfer_response raw with
          | error e => intro _; simp [stepOutcome, hpool, htok, hl, hp]
          | ok trip =>
            rcases trip with ⟨cids, tid, uid⟩
            intro hcontra
            exfalso
            simp [stepOutcome, hpool, htok, hl, hp] at hcontra
  · by_cases hpool : pool.isEmpty
    · intro h; exfalso; simp [stepOutcome, hpool] at h
    · cases tokenRes with
      | error e => intro h; exfalso; simp [stepOutcome, hpool, htok] at h
      | ok t =>
        cases hl : o.ledgerResult with
        | error e => intro h; exfalso; simp [stepOutcome, hpool, htok, hl] at h
        | ok raw =>
          cases hp : parse_transfer_response raw with
          | error e => intro h; exfalso; simp [stepOutcome, hpool, htok, hl, hp] at h
          | ok trip =>
            rcases trip with ⟨cids, tid, uid⟩
            intro _
            refine ⟨raw, cids, tid, uid, rfl, hp, ?_, ?_, ?_⟩ <;>
              simp [stepOutcome, hpool, htok, hl, hp]

/-- C2 witness: a ledger-level failure leaves a concrete pool untouched. -/
theorem c2_witness :
    ((stepOutcome cexParamsC4 dummyOracle 0 ⟨"rcv0", "1.0", none⟩ ["h1"]
        { dummyTok with expires_at := 1000 }).1).success = false ∧
      (stepOutcome cexParamsC4 dummyOracle 0 ⟨"rcv0", "1.0", none⟩ ["h1"]
          { dummyTok with expires_at := 1000 }).2.1 = ["h1"] :=
  ⟨by decide,
   (c2_pool_frame cexParamsC4 dummyOracle 0 ⟨"rcv0", "1.0", none⟩ ["h1"]
      { dummyTok with expires_at := 1000 }).1 (by decide)⟩

/-! ## Lemmas for the empty-pool behavior -/

theorem stepOutcome_empty_pool (p : SeqParams) (o : IterOracle) (idx : Nat)
    (r : Recipient) (tok : TokenState) :
    stepOutcome p o idx r [] tok =
      ({ success := false, transfer_index := idx, receiver := r.receiver,
         amount := r.amount, transfer_offer_cid := none, update_id := none,
         reference := none, raw_response := none,
         error := some "No UTXOs available for transfer" }, [], tok) := by
  simp [stepOutcome]

theorem chainLoop_empty_pool (p : SeqParams) (env : Nat → IterOracle)
    (rs : List Recipient) :
    ∀ (idx : Nat) (s : LoopState), s.pool = [] →
      (chainLoop p env idx rs s).pool = [] ∧
      (∃ new : List TransferResult,
        (chainLoop p env idx rs s).results = s.results ++ new ∧
        new.length = rs.length ∧
        (∀ r ∈ new, r.success = false ∧
          r.error = some "No UTXOs available for transfer")) ∧
      (chainLoop p env idx rs s).successful_count = s.successful_count ∧
      (chainLoop p env idx rs s).failed_count = s.failed_count + rs.length := by
  induction rs with
  | nil =>
    intro idx s hpool
    exact ⟨hpool, ⟨[], by simp [chainLoop], rfl, by simp⟩, rfl, by simp [chainLoop]⟩
  | cons r rest ih =>
    intro idx s hpool
    have hloop : chainLoop p env idx (r :: rest) s =
        chainLoop p env (idx + 1) rest (stepTransfer p (env idx) idx r s) := rfl
    have hstep : stepTransfer p (env idx) idx r s =
        { results := s.results ++
            [{ success := false, transfer_index := idx, receiver := r.receiver,
               amount := r.amount, transfer_offer_cid := none, update_id := none,
               reference := none, raw_response := none,
               error := some "No UTXOs available for transfer" }]
          pool := []
          successful_count := s.successful_count
          failed_count := s.failed_count + 1
          trace := notifyObserver p.has_callback s.trace
            { success := false, transfer_index := idx, receiver := r.receiver,
              amount := r.amount, transfer_offer_cid := none, update_id := none,
              reference := none, raw_response := none,
              error := some "No UTXOs available for transfer" }
          token := s.token } := by
      unfold stepTransfer
      rw [hpool, stepOutcome_empty_pool]
      rfl
    obtain ⟨g1, ⟨new, g2, g3, g4⟩, g5, g6⟩ :=
      ih (idx + 1) (stepTransfer p (env idx) idx r s) (by rw [hstep])
    rw [hloop]
    refine ⟨g1,
      ⟨{ success := false, transfer_index := idx, receiver := r.receiver,
         amount := r.amount, transfer_offer_cid := none, update_id := none,
         reference := none, raw_response := none,
         error := some "No UTXOs available for transfer" } :: new, ?_, ?_, ?_⟩,
      ?_, ?_⟩
    · rw [g2, hstep]; simp
    · simp [g3]
    · intro x hx
      rcases List.mem_cons.mp hx with h | h
      · subst h; exact ⟨rfl, rfl⟩
      · exact g4 x h
    · rw [g5, hstep]
    · rw [g6, hstep]; simp [List.length_cons]; omega

/-- C4 (counterexample): with no initial holdings and one recipient, the
failed result's error string is `"No UTXOs available for transfer"`, not
the `"no holdings available"` stated by the claim. -/
theorem c4_counterexample :
    ∃ out, submit_sequential_chained cexParamsC4 dummyTok (.ok ())
        (fun _ => dummyOracle) = .ok out ∧
      out.results.map (fun r => r.error) =
        [some "No UTXOs available for transfer"] ∧
      out.results.map (fun r => r.error) ≠ [some "no holdings available"] :=
  ⟨_, rfl, by decide, by decide⟩

/-- C4 (amended): with an empty initial pool and N ≥ 1 recipients (and an
available registry context), every iteration fails with error
`"No UTXOs available for transfer"`, the pool stays empty throughout, all
N results fail, `successful_count = 0`, `failed_count = N`, and the call
still returns `Ok`. -/
theorem c4_empty_pool_all_fail (p : SeqParams) (tok : TokenState)
    (registryResult : Except String Unit) (env : Nat → IterOracle)
    (hpool : p.initial_holding_cids = []) (hne : p.recipients ≠ [])
    (hreg : p.registry_response = some () ∨ registryResult = .ok ()) :
    ∃ out, submit_sequential_chained p tok registryResult env = .ok out ∧
      out.results.length = p.recipients.length ∧
      (∀ r ∈ out.results, r.success = false ∧
        r.error = some "No UTXOs available for transfer") ∧
      out.successful_count = 0 ∧
      out.failed_count = p.recipients.length ∧
      out.final_pool = [] := by
  unfold submit_sequential_chained
  rw [if_neg (by simpa [List.isEmpty_iff] using hne)]
  have hm : (match p.registry_response with
             | some u => Except.ok u
             | none => registryResult) = Except.ok () := by
    rcases hreg with h | h
    · rw [h]
    · cases hr : p.registry_response with
      | some u => cases u; rfl
      | none => rw [h]
  rw [hm]
  obtain ⟨g1, ⟨new, g2, g3, g4⟩, g5, g6⟩ := chainLoop_empty_pool p env p.recipients 0
    { results := [], pool := p.initial_holding_cids, successful_count := 0,
      failed_count := 0, trace := [], token := tok } hpool
  refine ⟨_, rfl, ?_, ?_, ?_, ?_, ?_⟩
  · dsimp only; rw [g2]; simpa using g3
  · dsimp only; rw [g2]; simpa using g4
  · dsimp only; rw [g5]
  · dsimp only; rw [g6]; simp
  · exact g1

/-- C4 witness: the two-recipient, zero-holdings run. -/
theorem c4_witness :
    ∃ out, submit_sequential_chained
        { cexParamsC4 with recipients :=
            [{ receiver := "rcv0", amount := "1.0", reference := none },
             { receiver := "rcv1", amount := "2.0", reference := none }] }
        dummyTok (.ok ()) (fun _ => dummyOracle) = .ok out ∧
      out.results.length = 2 ∧
      (∀ r ∈ out.results, r.success = false ∧
        r.error = some "No UTXOs available for transfer") ∧
      out.successful_count = 0 ∧
      out.failed_count = 2 ∧
      out.final_pool = [] := by
  have h := c4_empty_pool_all_fail
    { cexParamsC4 with recipients :=
        [{ receiver := "rcv0", amount := "1.0", reference := none },
         { receiver := "rcv1", amount := "2.0", reference := none }] }
    dummyTok (.ok ()) (fun _ => dummyOracle) rfl (by decide) (Or.inl rfl)
  simpa using h

/-! ## Lemmas about the batch controller -/

theorem chunksFuel_congr {α : Type} (k : Nat) :
    ∀ (fuel : Nat) (l : List α) (fuel' : Nat), l.length ≤ fuel → l.length ≤ fuel' →
      chunksFuel k fuel l = chunksFuel k fuel' l := by
  intro fuel
  induction fuel with
  | zero =>
    intro l fuel' h _
    have : l = [] := List.eq_nil_of_length_eq_zero (by omega)
    subst this
    cases fuel' <;> rfl
  | succ f ihf =>
    intro l fuel' h h'
    cases l with
    | nil => cases fuel' <;> rfl
    | cons x xs =>
      cases fuel' with
      | zero => simp at h'
      | succ f' =>
        simp only [chunksFuel]
        congr 1
        apply ihf
        · simp only [List.length_drop]
          simp only [List.length_cons] at h
          omega
        · simp only [List.length_drop]
          simp only [List.length_cons] at h'
          omega

theorem chunks_nil {α : Type} : chunks 5 ([] : List α) = [] := rfl

theorem chunks_cons {α : Type} (x : α) (xs : List α) :
    chunks 5 (x :: xs) = (x :: xs.take (5 - 1)) :: chunks 5 (xs.drop (5 - 1)) := by
  unfold chunks
  simp only [List.length_cons, chunksFuel]
  congr 1
  apply chunksFuel_congr
  · simp only [List.length_drop]; omega
  · exact le_rfl

/-- The induction principle of the chunk recursion. -/
theorem chunks_rec {α : Type} {motive : List α → Prop} (h0 : motive [])
    (h1 : ∀ (x : α) (xs : List α), motive (xs.drop (5 - 1)) → motive (x :: xs))
    (l : List α) : motive l := by
  have key : ∀ (n : Nat) (l' : List α), l'.length ≤ n → motive l' := by
    intro n
    induction n with
    | zero =>
      intro l' h
      have : l' = [] := List.eq_nil_of_length_eq_zero (by omega)
      subst this
      exact h0
    | succ n ihn =>
      intro l' h
      cases l' with
      | nil => exact h0
      | cons x xs =>
        refine h1 x xs (ihn _ ?_)
        simp only [List.length_drop]
        simp only [List.length_cons] at h
        omega
  exact key l.length l le_rfl

theorem chunks_length {α : Type} (l : List α) :
    (chunks 5 l).length = (l.length + 4) / 5 := by
  induction l using chunks_rec with
  | h0 => simp [chunks_nil]
  | h1 x xs ih =>
    rw [chunks_cons]
    simp only [List.length_cons, List.length_drop] at *
    omega

theorem chunks_flatten {α : Type} (l : List α) : (chunks 5 l).flatten = l := by
  induction l using chunks_rec with
  | h0 => simp [chunks_nil]
  | h1 x xs ih =>
    rw [chunks_cons]
    simp only [List.flatten_cons, ih]
    simp [List.take_append_drop]

theorem chunks_sizes {α : Type} (l : List α) : ∀ c ∈ chunks 5 l, c.length ≤ 5 := by
  induction l using chunks_rec with
  | h0 => simp [chunks_nil]
  | h1 x xs ih =>
    rw [chunks_cons]
    intro c hc
    rcases List.mem_cons.mp hc with h | h
    · subst h
      simp only [List.length_cons]
      have := List.length_take_le (5 - 1) xs
      omega
    · exact ih c h

theorem runBatches_cons (sb : Nat → Except String Unit) (b0 : Nat)
    (batch : List PendingTransfer) (rest : List (List PendingTransfer)) :
    runBatches sb b0 (batch :: rest) =
      (batchResults batch (sb b0) ++ (runBatches sb (b0 + 1) rest).1,
       (if exOk (sb b0) then batch.length else 0) + (runBatches sb (b0 + 1) rest).2.1,
       (if exOk (sb b0) then 0 else batch.length) + (runBatches sb (b0 + 1) rest).2.2) :=
  rfl

theorem batchResults_length (batch : List PendingTransfer)
    (outcome : Except String Unit) :
    (batchResults batch outcome).length = batch.length := by
  unfold batchResults; simp

theorem runBatches_results_length (sb : Nat → Except String Unit) :
    ∀ (cs : List (List PendingTransfer)) (b0 : Nat),
      (runBatches sb b0 cs).1.length = cs.flatten.length := by
  intro cs
  induction cs with
  | nil => intro b0; simp [runBatches]
  | cons batch rest ih =>
    intro b0
    rw [runBatches_cons]
    simp [batchResults_length, ih (b0 + 1)]

theorem runBatches_counts (sb : Nat → Except String Unit) :
    ∀ (cs : List (List PendingTransfer)) (b0 : Nat),
      (runBatches sb b0 cs).2.1 + (runBatches sb b0 cs).2.2 = cs.flatten.length := by
  intro cs
  induction cs with
  | nil => intro b0; simp [runBatches]
  | cons batch rest ih =>
    intro b0
    rw [runBatches_cons]
    have hr := ih (b0 + 1)
    by_cases h : exOk (sb b0) <;> simp [h, batchResults_length] at hr ⊢ <;> omega

theorem runBatches_results_cids (sb : Nat → Except String Unit) :
    ∀ (cs : List (List PendingTransfer)) (b0 : Nat),
      (runBatches sb b0 cs).1.map (fun r => r.contract_id) =
        cs.flatten.map (fun t => t.contract_id) := by
  intro cs
  induction cs with
  | nil => intro b0; simp [runBatches]
  | cons batch rest ih =>
    intro b0
    rw [runBatches_cons]
    simp only [List.flatten_cons, List.map_append, ih (b0 + 1)]
    congr 1
    unfold batchResults
    rw [List.map_map]
    apply List.map_congr_left
    intro t _
    cases hd : extractDetails t with
    | mk amount sender => cases sb b0 <;> simp [hd]

theorem batchResults_getElem (batch : List PendingTransfer)
    (outcome : Except String Unit) (i : Nat) (r : AcceptResult)
    (h : (batchResults batch outcome)[i]? = some r) :
    r.success = exOk outcome ∧ r.error = outcomeError outcome ∧
      ∃ t, batch[i]? = some t ∧ r.contract_id = t.contract_id := by
  unfold batchResults at h
  rw [List.getElem?_map] at h
  cases hb : batch[i]? with
  | none => rw [hb] at h; simp at h
  | some t =>
    rw [hb] at h
    cases hd : extractDetails t with
    | mk amount sender =>
      cases outcome with
      | ok u =>
        simp only [hd, Option.map_some', Option.some.injEq] at h
        subst h
        exact ⟨rfl, rfl, t, rfl, rfl⟩
      | error e =>
        simp only [hd, Option.map_some', Option.some.injEq] at h
        subst h
        exact ⟨rfl, rfl, t, rfl, rfl⟩

theorem runBatches_getElem (sb : Nat → Except String Unit) :
    ∀ (l : List PendingTransfer) (b0 i : Nat) (r : AcceptResult),
      ((runBatches sb b0 (chunks 5 l)).1)[i]? = some r →
      r.success = exOk (sb (b0 + i / 5)) ∧
        r.error = outcomeError (sb (b0 + i / 5)) ∧
        ∃ t, l[i]? = some t ∧ r.contract_id = t.contract_id := by
  intro l
  induction l using chunks_rec with
  | h0 =>
    intro b0 i r h
    rw [chunks_nil] at h
    simp [runBatches] at h
  | h1 x xs ih =>
    intro b0 i r h
    rw [chunks_cons, runBatches_cons] at h
    dsimp only at h
    by_cases hi : i < (batchResults (x :: xs.take (5 - 1)) (sb b0)).length
    · rw [List.getElem?_append_left hi] at h
      have hlen : (batchResults (x :: xs.take (5 - 1)) (sb b0)).length ≤ 5 := by
        rw [batchResults_length]
        have := List.length_take_le (5 - 1) xs
        simp only [List.length_cons]
        omega
      have hdiv : b0 + i / 5 = b0 := by omega
      rw [hdiv]
      obtain ⟨h1, h2, t, ht, h3⟩ := batchResults_getElem _ _ _ _ h
      refine ⟨h1, h2, t, ?_, h3⟩
      rw [batchResults_length, List.length_cons] at hi
      cases i with
      | zero => simp only [List.getElem?_cons_zero] at ht ⊢; exact ht
      | succ j =>
        rw [List.getElem?_cons_succ] at ht ⊢
        rw [List.getElem?_take, if_pos (by omega)] at ht
        exact ht
    · rw [List.getElem?_append_right (by omega)] at h
      by_cases hxs : xs.length ≤ 5 - 1
      · rw [List.drop_eq_nil_of_le hxs, chunks_nil] at h
        simp [runBatches] at h
      · have hblen : (batchResults (x :: xs.take (5 - 1)) (sb b0)).length = 5 := by
          rw [batchResults_length, List.length_cons, List.length_take]
          omega
        rw [hblen] at h hi
        obtain ⟨h1, h2, t, ht, h3⟩ := ih (b0 + 1) (i - 5) r h
        have hdiv : b0 + 1 + (i - 5) / 5 = b0 + i / 5 := by omega
        rw [hdiv] at h1 h2
        refine ⟨h1, h2, t, ?_, h3⟩
        rw [List.getElem?_drop, show 5 - 1 + (i - 5) = i - 1 by omega] at ht
        have hcons : (x :: xs)[i]? = xs[i - 1]? := by
          cases i with
          | zero => omega
          | succ j => simp
        rw [hcons]
        exact ht

/-- C7: the batch controller splits the n pending items into ceil(n/5)
sequential groups of at most 5, submits each group as one multi-command
transaction, marks every item of a group successful on submission success
and failed — with the same error string — on failure, preserves item
order, and tallies `successful_count + failed_count = n`; concretely, 12
items make groups of sizes 5, 5, 2, and a failure on only the second
group yields results success×5, fail×5, success×2. -/
theorem c7_batch_controller (items : List PendingTransfer)
    (sb : Nat → Except String Unit) :
    (chunks 5 items).length = (items.length + 4) / 5 ∧
    (chunks 5 items).flatten = items ∧
    (∀ c ∈ chunks 5 items, c.length ≤ 5) ∧
    (∃ out, accept_all (.ok ()) (.ok items) (.ok ()) sb = .ok out ∧
      out.results.length = items.length ∧
      out.results.map (fun r => r.contract_id) = items.map (fun t => t.contract_id) ∧
      out.successful_count + out.failed_count = items.length ∧
      (∀ i r, (out.results)[i]? = some r →
        r.success = exOk (sb (i / 5)) ∧ r.error = outcomeError (sb (i / 5)))) ∧
    ((chunks 5 items12).map List.length = [5, 5, 2] ∧
      ∃ out12, accept_all (.ok ()) (.ok items12) (.ok ()) sb12 = .ok out12 ∧
        out12.results.map (fun r => r.success) =
          [true, true, true, true, true, false, false, false, false, false,
           true, true]) := by
  refine ⟨chunks_length items, chunks_flatten items, chunks_sizes items, ?_, ?_, ?_⟩
  · have hout : accept_all (.ok ()) (.ok items) (.ok ()) sb =
        .ok { results := (runBatches sb 0 (chunks 5 items)).1,
              successful_count := (runBatches sb 0 (chunks 5 items)).2.1,
              failed_count := (runBatches sb 0 (chunks 5 items)).2.2 } := by
      unfold accept_all
      dsimp only
      by_cases he : items.isEmpty
      · rw [if_pos he]
        have : items = [] := List.isEmpty_iff.mp he
        subst this
        rw [chunks_nil]
        rfl
      · rw [if_neg he]
    refine ⟨_, hout, ?_, ?_, ?_, ?_⟩
    · dsimp only
      rw [runBatches_results_length sb (chunks 5 items) 0, chunks_flatten]
    · dsimp only
      rw [runBatches_results_cids sb (chunks 5 items) 0, chunks_flatten]
    · dsimp only
      rw [runBatches_counts sb (chunks 5 items) 0, chunks_flatten]
    · dsimp only
      intro i r h
      have := runBatches_getElem sb items 0 i r h
      simp only [Nat.zero_add] at this
      exact ⟨this.1, this.2.1⟩
  · decide
  · exact ⟨_, rfl, by decide⟩

/-! ## Consolidation claims -/

/-- C10: with an explicitly supplied holding list, `consolidate_utxos`
fails with "No holdings to consolidate" on an empty list and returns the
list unchanged on a singleton; in both cases its external-call trace is
empty — no registry fetch and no ledger submission, so ledger state is
untouched. -/
theorem c10_consolidate_early_exits :
    (∀ (fetched : Except String (List String))
       (proceed : List String → Except String (List String) × List ExtCall),
      consolidate_utxos (some []) fetched proceed =
        (.error "No holdings to consolidate", [])) ∧
    (∀ (c : String) (fetched : Except String (List String))
       (proceed : List String → Except String (List String) × List ExtCall),
      consolidate_utxos (some [c]) fetched proceed = (.ok [c], [])) := by
  exact ⟨fun fetched proceed => rfl, fun c fetched proceed => rfl⟩

/-! ## Lemmas about base64 and UTF-8 encoding -/

theorem b64Val_b64Char : ∀ n, n < 64 → b64Val (b64Char n) = n := by decide

theorem b64Char_ne_pad : ∀ n, n < 64 → b64Char n ≠ '=' := by decide

theorem decode_encode (bs : List Nat) (hb : ∀ b ∈ bs, b < 256) :
    decodeB64 (encodeB64 bs) = bs := by
  induction bs using encodeB64.induct with
  | case1 => rfl
  | case2 a =>
    have ha : a < 256 := hb a (by simp)
    simp only [encodeB64, decodeB64, eq_self_iff_true, if_true]
    rw [b64Val_b64Char _ (by omega), b64Val_b64Char _ (by omega)]
    simp only [List.cons.injEq, and_true]
    omega
  | case3 a b =>
    have ha : a < 256 := hb a (by simp)
    have hbb : b < 256 := hb b (by simp)
    have hne : b64Char (b % 16 * 4) ≠ '=' := b64Char_ne_pad _ (by omega)
    simp only [encodeB64, decodeB64, hne, eq_self_iff_true, if_true, if_false]
    rw [b64Val_b64Char _ (by omega), b64Val_b64Char _ (by omega),
        b64Val_b64Char _ (by omega)]
    simp only [List.cons.injEq, and_true]
    constructor <;> omega
  | case4 a b c rest ih =>
    have ha : a < 256 := hb a (by simp)
    have hbb : b < 256 := hb b (by simp)
    have hc : c < 256 := hb c (by simp)
    have hrest : ∀ x ∈ rest, x < 256 := fun x hx => hb x (by simp [hx])
    have hne1 : b64Char (b % 16 * 4 + c / 64) ≠ '=' := b64Char_ne_pad _ (by omega)
    have hne2 : b64Char (c % 64) ≠ '=' := b64Char_ne_pad _ (by omega)
    simp only [encodeB64, decodeB64, hne1, hne2, if_false]
    rw [b64Val_b64Char _ (by omega), b64Val_b64Char _ (by omega),
        b64Val_b64Char _ (by omega), b64Val_b64Char _ (by omega)]
    rw [ih hrest]
    simp only [List.cons.injEq, and_true]
    refine ⟨by omega, by omega, by omega⟩

theorem encodeB64_inj (bs1 bs2 : List Nat) (h1 : ∀ b ∈ bs1, b < 256)
    (h2 : ∀ b ∈ bs2, b < 256) (h : encodeB64 bs1 = encodeB64 bs2) : bs1 = bs2 := by
  have e1 := decode_encode bs1 h1
  have e2 := decode_encode bs2 h2
  rw [← e1, ← e2, h]

theorem char_toNat_lt (c : Char) : c.toNat < 1114112 := by
  have h := c.valid
  have he : c.toNat = c.val.toNat := rfl
  rcases h with h | h <;> omega

theorem char_toNat_inj {c d : Char} (h : c.toNat = d.toNat) : c = d :=
  Char.eq_of_val_eq (UInt32.ext h)

theorem utf8Char_lt (c : Char) : ∀ b ∈ utf8Char c, b < 256 := by
  have hlt := char_toNat_lt c
  unfold utf8Char
  split_ifs with p1 p2 p3 <;>
  · intro b hmem
    simp only [List.mem_cons, List.mem_singleton, List.not_mem_nil, or_false] at hmem
    omega

theorem utf8Char_ne_nil (c : Char) : utf8Char c ≠ [] := by
  unfold utf8Char
  split_ifs <;> simp

theorem utf8Char_glue (c1 c2 : Char) (r1 r2 : List Nat)
    (h : utf8Char c1 ++ r1 = utf8Char c2 ++ r2) : c1 = c2 ∧ r1 = r2 := by
  unfold utf8Char at h
  split_ifs at h <;>
    simp only [List.cons_append, List.nil_append, List.cons.injEq] at h <;>
    first
      | (obtain ⟨e1, hr⟩ := h
         exact ⟨char_toNat_inj (by omega), hr⟩)
      | (obtain ⟨e1, e2, hr⟩ := h
         exact ⟨char_toNat_inj (by omega), hr⟩)
      | (obtain ⟨e1, e2, e3, hr⟩ := h
         exact ⟨char_toNat_inj (by omega), hr⟩)
      | (obtain ⟨e1, e2, e3, e4, hr⟩ := h
         exact ⟨char_toNat_inj (by omega), hr⟩)
      | (exfalso
         obtain ⟨e1, hr⟩ := h
         omega)

theorem utf8List_inj : ∀ l1 l2 : List Char, utf8List l1 = utf8List l2 → l1 = l2 := by
  intro l1
  induction l1 with
  | nil =>
    intro l2 h
    cases l2 with
    | nil => rfl
    | cons d ds =>
      exfalso
      unfold utf8List at h
      exact utf8Char_ne_nil d (List.append_eq_nil.mp h.symm).1
  | cons c cs ih =>
    intro l2 h
    cases l2 with
    | nil =>
      exfalso
      unfold utf8List at h
      exact utf8Char_ne_nil c (List.append_eq_nil.mp h).1
    | cons d ds =>
      unfold utf8List at h
      obtain ⟨hc, hr⟩ := utf8Char_glue c d _ _ h
      rw [hc, ih ds hr]

theorem utf8List_lt : ∀ l : List Char, ∀ b ∈ utf8List l, b < 256 := by
  intro l
  induction l with
  | nil => intro b hmem; simp [utf8List] at hmem
  | cons c cs ih =>
    intro b hmem
    unfold utf8List at hmem
    rcases List.mem_append.mp hmem with h | h
    · exact utf8Char_lt c b h
    · exact ih b h

theorem utf8Bytes_inj (s t : String) (h : utf8Bytes s = utf8Bytes t) : s = t := by
  cases s with
  | mk l1 =>
    cases t with
    | mk l2 => exact congrArg String.mk (utf8List_inj l1 l2 h)

theorem append_sep_inj :
    ∀ (xs1 xs2 ys1 ys2 : List Char), '-' ∉ xs1 → '-' ∉ xs2 →
      xs1 ++ '-' :: ys1 = xs2 ++ '-' :: ys2 → xs1 = xs2 ∧ ys1 = ys2 := by
  intro xs1
  induction xs1 with
  | nil =>
    intro xs2 ys1 ys2 _ h2 h
    cases xs2 with
    | nil => simpa using h
    | cons a as =>
      exfalso
      simp only [List.nil_append, List.cons_append, List.cons.injEq] at h
      exact h2 (h.1 ▸ List.mem_cons_self a as)
  | cons a as ih =>
    intro xs2 ys1 ys2 h1 h2 h
    cases xs2 with
    | nil =>
      exfalso
      simp only [List.nil_append, List.cons_append, List.cons.injEq] at h
      exact h1 (h.1.symm ▸ List.mem_cons_self a as)
    | cons b bs =>
      simp only [List.cons_append, List.cons.injEq] at h
      obtain ⟨hab, htail⟩ := h
      obtain ⟨hx, hy⟩ := ih bs ys1 ys2 (fun hm => h1 (List.mem_cons_of_mem a hm))
        (fun hm => h2 (List.mem_cons_of_mem b hm)) htail
      exact ⟨by rw [hab, hx], hy⟩

theorem string_data_inj {s t : String} (h : s.data = t.data) : s = t := by
  cases s with
  | mk l1 => cases t with
    | mk l2 => exact congrArg String.mk h

/-- C8 (counterexample): the code inserts hyphen separators, so the
reference is not base64 of the plain concatenation, and two triples that
differ in their first two components can collide. -/
theorem c8_counterexample :
    generate_unique_reference "a-b" "c" "x" = generate_unique_reference "a" "b-c" "x" ∧
      ("a-b" : String) ≠ "a" ∧ ("c" : String) ≠ "b-c" ∧
      generate_unique_reference "a" "b" "c" ≠
        ⟨encodeB64 (utf8Bytes ("a" ++ "b" ++ "c"))⟩ := by
  refine ⟨by decide, by decide, by decide, by decide⟩

/-- C8 (amended): the computed reference is base64 of the UTF-8 bytes of
the hyphen-joined string base-sender-receiver; it is deterministic; it is
injective on triples whose components contain no hyphen; and a
recipient-supplied reference always overrides the computed one. -/
theorem c8_reference_spec :
    (∀ b s r : String, generate_unique_reference b s r =
        ⟨encodeB64 (utf8Bytes (b ++ "-" ++ s ++ "-" ++ r))⟩) ∧
    (∀ b s r : String,
      generate_unique_reference b s r = generate_unique_reference b s r) ∧
    (∀ b s r b' s' r' : String, '-' ∉ b.data → '-' ∉ s.data → '-' ∉ r.data →
      '-' ∉ b'.data → '-' ∉ s'.data → '-' ∉ r'.data →
      generate_unique_reference b s r = generate_unique_reference b' s' r' →
      b = b' ∧ s = s' ∧ r = r') ∧
    (∀ (reference_base : Option String) (sender : String) (recipient : Recipient)
       (u : String), recipient.reference = some u →
      computeReference reference_base sender recipient = some u) ∧
    (∀ (base sender : String) (recipient : Recipient), recipient.reference = none →
      computeReference (some base) sender recipient =
        some (generate_unique_reference base sender recipient.receiver)) := by
  refine ⟨fun b s r => rfl, fun b s r => rfl, ?_, ?_, ?_⟩
  · intro b s r b' s' r' hb hs hr hb' hs' hr' h
    have hchars : encodeB64 (utf8Bytes (b ++ "-" ++ s ++ "-" ++ r)) =
        encodeB64 (utf8Bytes (b' ++ "-" ++ s' ++ "-" ++ r')) :=
      congrArg String.data h
    have hbytes := encodeB64_inj _ _ (utf8List_lt _) (utf8List_lt _) hchars
    have hstr := utf8Bytes_inj _ _ hbytes
    have hdata := congrArg String.data hstr
    simp only [String.data_append, List.append_assoc] at hdata
    simp only [List.singleton_append] at hdata
    obtain ⟨h1, h23⟩ := append_sep_inj _ _ _ _ hb hb' hdata
    obtain ⟨h2, h3⟩ := append_sep_inj _ _ _ _ hs hs' h23
    exact ⟨string_data_inj h1, string_data_inj h2, string_data_inj h3⟩
  · intro reference_base sender recipient u hu
    unfold computeReference
    rw [hu]
  · intro base sender recipient hn
    unfold computeReference
    rw [hn]
    rfl

/-- C8 witness: injectivity applied at concrete hyphen-free components,
and the override at a concrete recipient-supplied reference. -/
theorem c8_witness :
    (("x" : String) = "x" ∧ ("y" : String) = "y" ∧ ("z" : String) = "z") ∧
      computeReference (some "base") "snd"
        { receiver := "rcv", amount := "amt", reference := some "override" } =
        some "override" := by
  constructor
  · exact c8_reference_spec.2.2.1 "x" "y" "z" "x" "y" "z" (by decide) (by decide)
      (by decide) (by decide) (by decide) (by decide) rfl
  · exact c8_reference_spec.2.2.2.1 (some "base") "snd"
      { receiver := "rcv", amount := "amt", reference := some "override" } "override" rfl
